import Mathlib

/-
  Verification of the authentication service and the quality-assurance
  events component of the dspace-angular front end.

  The TypeScript sources are shallowly embedded: observables are replaced
  by the value they deliver to their subscriber, in-place mutation of a
  view-model list is replaced by explicit functional update at an index,
  and the cookie storage is an optional stored token value.
-/

namespace DSpace

/-
  ==== auth.service.ts ====

  The cookie storage (`this.storage.get(TOKENITEM)`) yields either nothing
  (null / undefined cookie) or a deserialized token object whose
  `accessToken` property may be absent.  `expires` stands for the other
  token fields, irrelevant to every check the service performs.
-/

structure StoredToken where
  accessToken : Option String
  expires : Option Nat
deriving Repr, DecidableEq

/- The content of the cookie slot under the fixed TOKENITEM key. -/
abbrev TokenStorage := Option StoredToken

/-
  `isNotEmpty` from empty.util, specialised to the stored cookie value:
  null / undefined is empty, any deserialized object is non-empty
  (the Ember-style emptiness check looks only at null, undefined and a
  `length` / `size` property, so a plain token object is never empty).
-/
def isNotEmptyStored : TokenStorage → Bool
  | none => false
  | some _ => true

/-
  AuthService.getToken (auth.service.ts lines 173-181):
  returns the stored token only when it is non-empty, has an own
  `accessToken` property and that `accessToken` is a non-empty string;
  otherwise returns null.
-/
def getToken (storage : TokenStorage) : Option StoredToken :=
  match storage with
  | none => none
  | some t =>
    match t.accessToken with
    | some a => if a ≠ "" then some t else none
    | none => none

/-
  AuthService.getAuthHeader (auth.service.ts lines 164-167):
  `(this._authenticated && isNotNull(token)) ? Bearer ... : ''`.
  The template-literal interpolation of the token is only reached when
  getToken returned a token, whose accessToken the guard made non-empty;
  the getD default mirrors the JS interpolation of an undefined field.
-/
def getAuthHeader (authenticated : Bool) (storage : TokenStorage) : String :=
  match getToken storage with
  | some t => if authenticated then "Bearer " ++ t.accessToken.getD "undefined" else ""
  | none => ""

/-
  AuthService.checkAuthenticationToken (auth.service.ts lines 116-119):
  `isNotEmpty(token) ? Observable.of(token) : Observable.throw(false)`
  where token is the result of getToken; the observable is embedded as an
  Except, `Except.error false` standing for the thrown `false`.
-/
def checkAuthenticationToken (storage : TokenStorage) : Except Bool StoredToken :=
  match getToken storage with
  | some t => Except.ok t
  | none => Except.error false

/- The backend status object, reduced to the field the service inspects. -/
structure AuthStatus where
  authenticated : Bool
deriving Repr, DecidableEq

/- The mutable state the auth service owns or caches. -/
structure AuthServiceState where
  authFlag : Bool
  storage : TokenStorage
  redirectUrl : Option String
deriving Repr, DecidableEq

/-
  AuthService.authenticate (auth.service.ts lines 66-82), embedded as a
  function of the status the backend answers with: the map over the
  response returns the status when it reports authenticated and otherwise
  throws `Error('Invalid email or password')`.  The service state is
  returned alongside to record that the call leaves it untouched.
-/
def authenticate (st : AuthServiceState) (status : AuthStatus) :
    Except String AuthStatus × AuthServiceState :=
  if status.authenticated then (Except.ok status, st)
  else (Except.error "Invalid email or password", st)

def LOGIN_ROUTE : String := "/login"

/- The router state slice the redirect subscription reads. -/
structure RouterState where
  url : String
deriving Repr, DecidableEq

/- isNotEmpty on the stored redirect url: undefined or '' is empty. -/
def isNotEmptyOptStr : Option String → Bool
  | none => false
  | some s => s ≠ ""

/-
  The redirect-tracking subscription of the AuthService constructor
  (auth.service.ts lines 44-56): a route-state emission with an undefined
  state is filtered out, an emission whose url is the login route is
  filtered out, and otherwise setRedirectUrl('') fires exactly when the
  stored redirect url is non-empty and differs from the new route url.
  The function returns the stored redirect url after the emission.
-/
def redirectAfterRouteChange (routerState : Option RouterState)
    (redirectUrl : Option String) : Option String :=
  match routerState with
  | none => redirectUrl
  | some rs =>
    if rs.url = LOGIN_ROUTE then redirectUrl
    else if isNotEmptyOptStr redirectUrl ∧ rs.url ≠ redirectUrl.getD "" then some ""
    else redirectUrl

/-
  ==== quality-assurance-events.component.ts ====
-/

/- A repository item, reduced to the fields the component reads. -/
structure Item where
  id : Option String
  handle : Option String
deriving Repr, DecidableEq

/-
  A completed RemoteData as delivered by getFirstCompletedRemoteData:
  a success flag and an optional payload (the component guards payload
  access on the related / target records with optional chaining).
-/
structure RemoteData (α : Type) where
  hasSucceeded : Bool
  payload : Option α
deriving Repr, DecidableEq

/- The event message, reduced to the field the component reads. -/
structure EventMessage where
  title : Option String
deriving Repr, DecidableEq

/- A raw QualityAssuranceEventObject, reduced to the fields read. -/
structure QualityAssuranceEventObject where
  id : String
  title : Option String
  message : EventMessage
deriving Repr, DecidableEq

/- The per-event view-model assembled by fetchEvents. -/
structure QualityAssuranceEventData where
  event : QualityAssuranceEventObject
  id : String
  title : Option String
  hasProject : Bool
  projectTitle : Option String
  projectId : Option String
  handle : Option String
  reason : Option String
  isRunning : Bool
  target : Option Item
deriving Repr, DecidableEq

/- JS truthiness of an optional string: undefined and '' are falsy. -/
def truthyOptStr : Option String → Bool
  | none => false
  | some s => s ≠ ""

/-
  The body of the combineLatest map inside fetchEvents (part_001 lines
  427-447): build the default view-model, then, when the related record
  resolved successfully with a truthy id, switch on hasProject and copy
  the message title, related id and related handle.
-/
def buildEventData (event : QualityAssuranceEventObject)
    (relatedItemRD targetItemRD : RemoteData Item) : QualityAssuranceEventData :=
  let data : QualityAssuranceEventData :=
    { event := event
      id := event.id
      title := event.title
      hasProject := false
      projectTitle := none
      projectId := none
      handle := none
      reason := none
      isRunning := false
      target := if targetItemRD.hasSucceeded then targetItemRD.payload else none }
  if relatedItemRD.hasSucceeded ∧ truthyOptStr (relatedItemRD.payload.bind Item.id) then
    { data with
      hasProject := true
      projectTitle := event.message.title
      projectId := relatedItemRD.payload.bind Item.id
      handle := relatedItemRD.payload.bind Item.handle }
  else data

/-
  One raw event paired with the first completed RemoteData of its
  `related` and `target` link observables.
-/
structure ResolvedEvent where
  event : QualityAssuranceEventObject
  relatedRD : RemoteData Item
  targetRD : RemoteData Item
deriving Repr, DecidableEq

/-
  fetchEvents (part_001 lines 417-453): mergeMap over the page of events,
  assembling one view-model per event once its related / target records
  resolve, then scan / last collecting them into one list.
-/
def fetchEvents (events : List ResolvedEvent) : List QualityAssuranceEventData :=
  events.map (fun r => buildEventData r.event r.relatedRD r.targetRD)

/- A page of results as returned by the find-list REST call. -/
structure PaginatedList (α : Type) where
  totalElements : Nat
  page : List α
deriving Repr, DecidableEq

/-
  getQualityAssuranceEvents (part_001 lines 373-399), as a function of the
  first completed RemoteData of the events-by-topic request.  The result
  triple carries the list delivered to the subscriber, the value pushed on
  totalElements and whether the fetchEvents fan-out ran; a failed request
  is the thrown pipeline Error, and reading totalElements off a missing
  payload is the JS TypeError such an access would raise.
-/
def getQualityAssuranceEvents (rd : RemoteData (PaginatedList ResolvedEvent)) :
    Except String (List QualityAssuranceEventData × Nat × Bool) :=
  if rd.hasSucceeded then
    match rd.payload with
    | some pl =>
      if pl.totalElements > 0 then
        Except.ok (fetchEvents pl.page, pl.totalElements, true)
      else
        Except.ok ([], pl.totalElements, false)
    | none => Except.error "TypeError"
  else
    Except.error "Can\x27t retrieve Quality Assurance events from the Broker events REST service"

/- A user-visible toast issued through the NotificationsService. -/
inductive Toast where
  | success
  | error
deriving Repr, DecidableEq

/-
  Functional stand-in for the in-place mutation of the view-model at one
  position of the component's list.
-/
def updateAt {α : Type} (i : Nat) (f : α → α) : List α → List α
  | [] => []
  | e :: rest =>
    match i with
    | 0 => f e :: rest
    | k + 1 => e :: updateAt k f rest

/- The observable outcome of one executeAction invocation. -/
structure ExecOutcome where
  finalList : List QualityAssuranceEventData
  emittedList : List QualityAssuranceEventData
  toast : Toast
  refetchPerformed : Bool
  eventDataFinal : Option QualityAssuranceEventData
deriving Repr, DecidableEq

/-
  executeAction (part_001 lines 265-288) on the event at index i of the
  current list.  `eventData.isRunning = true` mutates the entry in place;
  on a succeeded patch the pipeline notifies success and re-fetches
  (`refetched` is the list that re-fetch delivers), on a failed patch it
  notifies an error and replays `this.eventsUpdated$.value`, which is the
  same (mutated-in-place) list object; the subscriber then emits the
  received list and sets `eventData.isRunning = false` on the original
  view-model object, which on the success path is no longer part of the
  emitted list.  `emittedList` and `finalList` record the emitted list
  object and the current list in their state once the call has settled,
  `eventDataFinal` the state of the view-model object handed to the call.
-/
def executeAction (current : List QualityAssuranceEventData) (i : Nat)
    (patchSucceeds : Bool) (refetched : List QualityAssuranceEventData) : ExecOutcome :=
  let l1 := updateAt i (fun e => { e with isRunning := true }) current
  if patchSucceeds then
    { finalList := refetched
      emittedList := refetched
      toast := Toast.success
      refetchPerformed := true
      eventDataFinal := (l1.get? i).map (fun e => { e with isRunning := false }) }
  else
    let l2 := updateAt i (fun e => { e with isRunning := false }) l1
    { finalList := l2
      emittedList := l2
      toast := Toast.error
      refetchPerformed := false
      eventDataFinal := l2.get? i }

/- The observable outcome of one boundProject / removeProject invocation. -/
structure ProjectOutcome where
  finalList : List QualityAssuranceEventData
  toast : Toast
  emissions : List (List QualityAssuranceEventData)
  refetchPerformed : Bool
deriving Repr, DecidableEq

/-
  boundProject (part_001 lines 302-323) on the event at index i: mark it
  running, and once the bind REST call completes either notify success and
  set the project fields to the supplied values, or notify an error; both
  paths end clearing isRunning.  Nothing is pushed on eventsUpdated$ and
  no re-fetch happens, so `emissions` is empty and `refetchPerformed`
  false by construction.
-/
def boundProject (current : List QualityAssuranceEventData) (i : Nat)
    (projectId projectTitle projectHandle : String) (bindSucceeds : Bool) : ProjectOutcome :=
  let l1 := updateAt i (fun e => { e with isRunning := true }) current
  if bindSucceeds then
    { finalList := updateAt i (fun e =>
        { e with hasProject := true
                 projectTitle := some projectTitle
                 handle := some projectHandle
                 projectId := some projectId
                 isRunning := false }) l1
      toast := Toast.success
      emissions := []
      refetchPerformed := false }
  else
    { finalList := updateAt i (fun e => { e with isRunning := false }) l1
      toast := Toast.error
      emissions := []
      refetchPerformed := false }

/-
  removeProject (part_001 lines 331-352) on the event at index i: the
  unbind counterpart of boundProject, clearing the project fields on
  success.
-/
def removeProject (current : List QualityAssuranceEventData) (i : Nat)
    (unbindSucceeds : Bool) : ProjectOutcome :=
  let l1 := updateAt i (fun e => { e with isRunning := true }) current
  if unbindSucceeds then
    { finalList := updateAt i (fun e =>
        { e with hasProject := false
                 projectTitle := none
                 handle := none
                 projectId := none
                 isRunning := false }) l1
      toast := Toast.success
      emissions := []
      refetchPerformed := false }
  else
    { finalList := updateAt i (fun e => { e with isRunning := false }) l1
      toast := Toast.error
      emissions := []
      refetchPerformed := false }

/-
  ==== helper lemmas about updateAt and the view-model records ====
-/

theorem updateAt_nil {α : Type} (i : Nat) (f : α → α) : updateAt i f ([] : List α) = [] := by
  simp [updateAt]

theorem updateAt_get?_ne {α : Type} (f : α → α) :
    ∀ (l : List α) (i j : Nat), j ≠ i → (updateAt i f l).get? j = l.get? j := by
  intro l
  induction l with
  | nil => intro i j _; simp [updateAt_nil]
  | cons e rest ih =>
    intro i j hne
    cases i with
    | zero =>
      cases j with
      | zero => exact absurd rfl hne
      | succ k => simp [updateAt]
    | succ m =>
      cases j with
      | zero => simp [updateAt]
      | succ k =>
        simp only [updateAt, List.get?_cons_succ]
        exact ih m k (fun h => hne (by simp [h]))

theorem updateAt_get?_eq {α : Type} (f : α → α) :
    ∀ (l : List α) (i : Nat), (updateAt i f l).get? i = (l.get? i).map f := by
  intro l
  induction l with
  | nil => intro i; simp [updateAt_nil]
  | cons e rest ih =>
    intro i
    cases i with
    | zero => simp [updateAt]
    | succ m =>
      simp only [updateAt, List.get?_cons_succ]
      exact ih m

theorem updateAt_updateAt {α : Type} (f g : α → α) :
    ∀ (l : List α) (i : Nat), updateAt i g (updateAt i f l) = updateAt i (fun x => g (f x)) l := by
  intro l
  induction l with
  | nil => intro i; simp [updateAt_nil]
  | cons e rest ih =>
    intro i
    cases i with
    | zero => simp [updateAt]
    | succ m => simp [updateAt, ih m]

theorem updateAt_eq_self {α : Type} (f : α → α) :
    ∀ (l : List α) (i : Nat), (∀ e, l.get? i = some e → f e = e) → updateAt i f l = l := by
  intro l
  induction l with
  | nil => intro i _; simp [updateAt_nil]
  | cons e rest ih =>
    intro i h
    cases i with
    | zero =>
      have : f e = e := h e rfl
      simp [updateAt, this]
    | succ m =>
      simp only [updateAt, List.cons.injEq, true_and]
      exact ih m (fun x hx => h x (by simpa using hx))

theorem run_true_then_false (x : QualityAssuranceEventData) :
    ({ { x with isRunning := true } with isRunning := false } : QualityAssuranceEventData)
      = { x with isRunning := false } := by
  cases x
  rfl

theorem clear_running_id (e : QualityAssuranceEventData) (h : e.isRunning = false) :
    ({ e with isRunning := false } : QualityAssuranceEventData) = e := by
  cases e
  simp_all

theorem fetchEvents_isRunning_false (pairs : List ResolvedEvent) :
    ∀ vm ∈ fetchEvents pairs, vm.isRunning = false := by
  intro vm hvm
  simp only [fetchEvents, List.mem_map] at hvm
  obtain ⟨r, _, rfl⟩ := hvm
  by_cases hc : r.relatedRD.hasSucceeded ∧ truthyOptStr (r.relatedRD.payload.bind Item.id)
  · simp [buildEventData, hc]
  · simp [buildEventData, hc]

/-
  ==== sample values used as concrete instances ====
-/

def sampleEvent : QualityAssuranceEventObject :=
  { id := "ev1", title := some "Event one", message := { title := some "Message title" } }

def sampleEventData : QualityAssuranceEventData :=
  { event := sampleEvent
    id := "ev1"
    title := some "Event one"
    hasProject := false
    projectTitle := none
    projectId := none
    handle := none
    reason := none
    isRunning := false
    target := none }

def sampleResolvedEvent : ResolvedEvent :=
  { event := sampleEvent
    relatedRD := { hasSucceeded := true, payload := some { id := some "proj1", handle := some "hdl1" } }
    targetRD := { hasSucceeded := true, payload := some { id := some "tgt1", handle := none } } }

/-
  ==== auth.service.ts : helper lemmas ====
-/

theorem getToken_iff (storage : TokenStorage) (t : StoredToken) :
    getToken storage = some t ↔
      storage = some t ∧ ∃ a, t.accessToken = some a ∧ a ≠ "" := by
  cases storage with
  | none => simp [getToken]
  | some s =>
    cases hs : s.accessToken with
    | none =>
      constructor
      · intro h
        simp [getToken, hs] at h
      · rintro ⟨hst, a, hat, _⟩
        injection hst with hst
        subst hst
        rw [hs] at hat
        cases hat
    | some a =>
      by_cases ha : a = ""
      · subst ha
        constructor
        · intro h
          simp [getToken, hs] at h
        · rintro ⟨hst, b, hbt, hb⟩
          injection hst with hst
          subst hst
          rw [hs] at hbt
          injection hbt with hbt
          exact absurd hbt.symm hb
      · constructor
        · intro h
          simp [getToken, hs, ha] at h
          subst h
          exact ⟨rfl, a, hs, ha⟩
        · rintro ⟨hst, _⟩
          injection hst with hst
          subst hst
          simp [getToken, hs, ha]

theorem bearer_ne_empty (a : String) : "Bearer " ++ a ≠ "" := by
  intro h
  have hlen := congrArg String.length h
  rw [String.length_append] at hlen
  have h7 : ("Bearer ").length = 7 := by decide
  have h0 : ("" : String).length = 0 := by decide
  omega

/-
  ==== claims on the auth service ====
-/

/-- Claim C1: for every authentication flag value and stored token,
getAuthHeader returns the non-empty string Bearer followed by the token
accessToken exactly when the in-memory authenticated flag is true and getToken
returns a non-null token with a non-empty accessToken; in every other case it
returns the empty string. -/
theorem getAuthHeader_spec (authenticated : Bool) (storage : TokenStorage) :
    (getAuthHeader authenticated storage ≠ "" ↔
      authenticated = true ∧
        ∃ t a, getToken storage = some t ∧ t.accessToken = some a ∧ a ≠ "") ∧
    (getAuthHeader authenticated storage = "" ∨
      ∃ t a, getToken storage = some t ∧ t.accessToken = some a ∧
        getAuthHeader authenticated storage = "Bearer " ++ a) := by
  cases ht : getToken storage with
  | none =>
    constructor
    · simp [getAuthHeader, ht]
    · left
      simp [getAuthHeader, ht]
  | some t =>
    obtain ⟨hst, a, hat, ha⟩ := (getToken_iff storage t).mp ht
    cases authenticated with
    | false =>
      constructor
      · simp [getAuthHeader, ht]
      · left
        simp [getAuthHeader, ht]
    | true =>
      have hhdr : getAuthHeader true storage = "Bearer " ++ a := by
        simp [getAuthHeader, ht, hat]
      constructor
      · constructor
        · intro _
          exact ⟨rfl, t, a, rfl, hat, ha⟩
        · intro _
          rw [hhdr]
          exact bearer_ne_empty a
      · right
        exact ⟨t, a, rfl, hat, hhdr⟩

/-- Claim C10: getToken never returns a token with a missing or empty
accessToken: it returns the stored value exactly when that value is present,
carries an own accessToken property and that accessToken is non-empty; in every
other case it returns null. -/
theorem getToken_spec (storage : TokenStorage) :
    ∀ t : StoredToken, getToken storage = some t ↔
      storage = some t ∧ ∃ a, t.accessToken = some a ∧ a ≠ "" :=
  fun t => getToken_iff storage t

/-- Claim C4 counterexample: a token object stored with an empty accessToken is
present in storage and non-empty as a stored value, yet checkAuthenticationToken
fails, refuting that presence of a non-empty stored token suffices for
success. -/
theorem checkAuthenticationToken_cex :
    isNotEmptyStored (some { accessToken := some "", expires := none }) = true ∧
    checkAuthenticationToken (some { accessToken := some "", expires := none })
      = Except.error false := by
  constructor
  · rfl
  · rfl

/-- Claim C4 (amended): checkAuthenticationToken succeeds with the stored token
exactly when the stored value is present, has an accessToken property and that
accessToken is non-empty, that is exactly when getToken returns it; otherwise
the returned observable errors, signalling no token. -/
theorem checkAuthenticationToken_spec (storage : TokenStorage) :
    (∀ t : StoredToken, checkAuthenticationToken storage = Except.ok t ↔
      storage = some t ∧ ∃ a, t.accessToken = some a ∧ a ≠ "") ∧
    (checkAuthenticationToken storage = Except.error false ↔ getToken storage = none) := by
  constructor
  · intro t
    rw [← getToken_iff storage t]
    cases ht : getToken storage with
    | none => simp [checkAuthenticationToken, ht]
    | some s => simp [checkAuthenticationToken, ht]
  · cases ht : getToken storage with
    | none => simp [checkAuthenticationToken, ht]
    | some s => simp [checkAuthenticationToken, ht]

/-- Claim C9: authenticate succeeds yielding the backend status object exactly
when that status reports authenticated, and otherwise fails with the
invalid-credentials error; the service state is not modified by the call. -/
theorem authenticate_spec (st : AuthServiceState) (status : AuthStatus) :
    ((authenticate st status).1 = Except.ok status ↔ status.authenticated = true) ∧
    ((authenticate st status).1 = Except.error "Invalid email or password" ↔
      status.authenticated = false) ∧
    (authenticate st status).2 = st := by
  cases h : status.authenticated <;> simp [authenticate, h]

/-- Claim C5: on a route-state change whose url is not the login route, while a
non-empty redirect url is stored that differs from the new url, the stored
redirect url becomes the empty string; in every other case (login route, empty
or missing stored redirect, route equal to the stored redirect, or a filtered
undefined router state) it is left unchanged. -/
theorem redirectAfterRouteChange_spec (rs : RouterState) (redirectUrl : Option String) :
    (rs.url ≠ LOGIN_ROUTE ∧ isNotEmptyOptStr redirectUrl = true ∧
        rs.url ≠ redirectUrl.getD "" →
      redirectAfterRouteChange (some rs) redirectUrl = some "") ∧
    (rs.url = LOGIN_ROUTE ∨ isNotEmptyOptStr redirectUrl = false ∨
        rs.url = redirectUrl.getD "" →
      redirectAfterRouteChange (some rs) redirectUrl = redirectUrl) ∧
    redirectAfterRouteChange none redirectUrl = redirectUrl := by
  refine ⟨?_, ?_, rfl⟩
  · rintro ⟨h1, h2, h3⟩
    simp [redirectAfterRouteChange, h1, h2, h3]
  · intro h
    rcases h with h | h | h
    · simp [redirectAfterRouteChange, h]
    · simp [redirectAfterRouteChange, h]
    · simp [redirectAfterRouteChange, h]

/-- Claim C5 witness: a change to a route other than the login route clears a
differing stored redirect url, while a change to the login route leaves it
untouched. -/
theorem redirectAfterRouteChange_spec_witness :
    redirectAfterRouteChange (some { url := "/home" }) (some "/items/7") = some "" ∧
    redirectAfterRouteChange (some { url := "/login" }) (some "/items/7") = some "/items/7" := by
  constructor
  · exact (redirectAfterRouteChange_spec { url := "/home" } (some "/items/7")).1
      (by refine ⟨?_, ?_, ?_⟩ <;> decide)
  · exact (redirectAfterRouteChange_spec { url := "/login" } (some "/items/7")).2.1
      (Or.inl (by decide))

/-
  ==== quality-assurance component : helper lemmas ====
-/

theorem updateAt2_get?_ne {α : Type} (f g : α → α) (l : List α) (i j : Nat) (hj : j ≠ i) :
    (updateAt i g (updateAt i f l)).get? j = l.get? j :=
  (updateAt_get?_ne g (updateAt i f l) i j hj).trans (updateAt_get?_ne f l i j hj)

theorem updateAt2_get?_eq {α : Type} (f g : α → α) (l : List α) (i : Nat) :
    (updateAt i g (updateAt i f l)).get? i = (l.get? i).map (fun x => g (f x)) := by
  rw [updateAt_updateAt]
  exact updateAt_get?_eq _ l i

theorem buildEventData_project (e : QualityAssuranceEventObject) (rel tgt : RemoteData Item) :
    (rel.hasSucceeded = true ∧ truthyOptStr (rel.payload.bind Item.id) = true →
      (buildEventData e rel tgt).hasProject = true ∧
      (buildEventData e rel tgt).projectTitle = e.message.title ∧
      (buildEventData e rel tgt).projectId = rel.payload.bind Item.id ∧
      (buildEventData e rel tgt).handle = rel.payload.bind Item.handle) ∧
    (¬(rel.hasSucceeded = true ∧ truthyOptStr (rel.payload.bind Item.id) = true) →
      (buildEventData e rel tgt).hasProject = false ∧
      (buildEventData e rel tgt).projectTitle = none ∧
      (buildEventData e rel tgt).projectId = none ∧
      (buildEventData e rel tgt).handle = none) := by
  by_cases hc : rel.hasSucceeded = true ∧ truthyOptStr (rel.payload.bind Item.id) = true
  · refine ⟨fun _ => ?_, fun hn => absurd hc hn⟩
    simp [buildEventData, hc]
  · refine ⟨fun hp => absurd hp hc, fun _ => ?_⟩
    simp [buildEventData, hc]

theorem bound_update_comp (e : QualityAssuranceEventData) (pid ptitle phandle : String) :
    ({ { e with isRunning := true } with
        hasProject := true
        projectTitle := some ptitle
        handle := some phandle
        projectId := some pid
        isRunning := false } : QualityAssuranceEventData)
    = { e with
        hasProject := true
        projectTitle := some ptitle
        handle := some phandle
        projectId := some pid
        isRunning := false } := by
  cases e
  rfl

theorem remove_update_comp (e : QualityAssuranceEventData) :
    ({ { e with isRunning := true } with
        hasProject := false
        projectTitle := none
        handle := none
        projectId := none
        isRunning := false } : QualityAssuranceEventData)
    = { e with
        hasProject := false
        projectTitle := none
        handle := none
        projectId := none
        isRunning := false } := by
  cases e
  rfl

/-
  ==== claims on the quality-assurance component ====
-/

/-- Claim C2: every view-model fetchEvents produces for a page of events has
hasProject true with projectTitle the event message title and projectId and
handle copied from the resolved related record exactly when the related
reference resolved successfully with a non-empty id, and otherwise has
hasProject false with projectTitle, projectId and handle all null. -/
theorem fetchEvents_spec (pairs : List ResolvedEvent) (i : Nat) (h : i < pairs.length) :
    ∃ (r : ResolvedEvent) (vm : QualityAssuranceEventData),
      pairs.get? i = some r ∧ (fetchEvents pairs).get? i = some vm ∧
      (r.relatedRD.hasSucceeded = true ∧
          truthyOptStr (r.relatedRD.payload.bind Item.id) = true →
        vm.hasProject = true ∧ vm.projectTitle = r.event.message.title ∧
        vm.projectId = r.relatedRD.payload.bind Item.id ∧
        vm.handle = r.relatedRD.payload.bind Item.handle) ∧
      (¬(r.relatedRD.hasSucceeded = true ∧
          truthyOptStr (r.relatedRD.payload.bind Item.id) = true) →
        vm.hasProject = false ∧ vm.projectTitle = none ∧
        vm.projectId = none ∧ vm.handle = none) := by
  refine ⟨pairs.get ⟨i, h⟩, buildEventData (pairs.get ⟨i, h⟩).event
    (pairs.get ⟨i, h⟩).relatedRD (pairs.get ⟨i, h⟩).targetRD, ?_, ?_, ?_, ?_⟩
  · exact List.get?_eq_some.mpr ⟨h, rfl⟩
  · rw [fetchEvents, List.get?_map, List.get?_eq_some.mpr ⟨h, rfl⟩]
    rfl
  · exact (buildEventData_project _ _ _).1
  · exact (buildEventData_project _ _ _).2

/-- Claim C2 witness: a one-event page whose related record resolved with a
non-empty id yields a view-model with hasProject true, the message title as
projectTitle and the related id and handle copied over. -/
theorem fetchEvents_spec_witness :
    ∃ (r : ResolvedEvent) (vm : QualityAssuranceEventData),
      [sampleResolvedEvent].get? 0 = some r ∧
      (fetchEvents [sampleResolvedEvent]).get? 0 = some vm ∧
      (r.relatedRD.hasSucceeded = true ∧
          truthyOptStr (r.relatedRD.payload.bind Item.id) = true →
        vm.hasProject = true ∧ vm.projectTitle = r.event.message.title ∧
        vm.projectId = r.relatedRD.payload.bind Item.id ∧
        vm.handle = r.relatedRD.payload.bind Item.handle) ∧
      (¬(r.relatedRD.hasSucceeded = true ∧
          truthyOptStr (r.relatedRD.payload.bind Item.id) = true) →
        vm.hasProject = false ∧ vm.projectTitle = none ∧
        vm.projectId = none ∧ vm.handle = none) :=
  fetchEvents_spec [sampleResolvedEvent] 0 (by decide)

/-- Claim C6: when the events-by-topic request completes successfully with a
page of zero total elements, the subscriber receives the empty list, zero is
pushed on totalElements, and the fetchEvents fan-out is not performed. -/
theorem getQualityAssuranceEvents_zero (rd : RemoteData (PaginatedList ResolvedEvent))
    (pl : PaginatedList ResolvedEvent) (hs : rd.hasSucceeded = true)
    (hp : rd.payload = some pl) (h0 : pl.totalElements = 0) :
    getQualityAssuranceEvents rd = Except.ok ([], 0, false) := by
  simp [getQualityAssuranceEvents, hs, hp, h0]

/-- Claim C6 witness: a succeeded response with zero total elements yields the
empty list, a zero total and no fan-out. -/
theorem getQualityAssuranceEvents_zero_witness :
    getQualityAssuranceEvents
        { hasSucceeded := true, payload := some { totalElements := 0, page := [] } }
      = Except.ok ([], 0, false) :=
  getQualityAssuranceEvents_zero _ { totalElements := 0, page := [] } rfl rfl rfl

/-- Claim C3: when the REST patch of executeAction fails, the list emitted on
eventsUpdated is exactly the list that was current before the call, an error
toast is issued, and the isRunning flag of the targeted event, set true at the
start of the call, is false again at the end. -/
theorem executeAction_failure_spec (current : List QualityAssuranceEventData) (i : Nat)
    (refetched : List QualityAssuranceEventData)
    (h : ∀ e, current.get? i = some e → e.isRunning = false) :
    (executeAction current i false refetched).emittedList = current ∧
    (executeAction current i false refetched).finalList = current ∧
    (executeAction current i false refetched).toast = Toast.error ∧
    (executeAction current i false refetched).refetchPerformed = false ∧
    (executeAction current i false refetched).eventDataFinal = current.get? i ∧
    (∀ e, (updateAt i (fun x => { x with isRunning := true }) current).get? i = some e →
      e.isRunning = true) := by
  have hl : updateAt i (fun e => { e with isRunning := false })
      (updateAt i (fun e => { e with isRunning := true }) current) = current := by
    rw [updateAt_updateAt]
    apply updateAt_eq_self
    intro e he
    show ({ { e with isRunning := true } with isRunning := false } :
      QualityAssuranceEventData) = e
    rw [run_true_then_false]
    exact clear_running_id e (h e he)
  have hrun : ∀ e, (updateAt i (fun x => { x with isRunning := true }) current).get? i
      = some e → e.isRunning = true := by
    intro e he
    rw [updateAt_get?_eq] at he
    cases hx : current.get? i with
    | none => rw [hx] at he; cases he
    | some x =>
      rw [hx] at he
      simp only [Option.map_some', Option.some.injEq] at he
      subst he
      rfl
  refine ⟨?_, ?_, rfl, rfl, ?_, hrun⟩
  · show updateAt i (fun e => { e with isRunning := false })
      (updateAt i (fun e => { e with isRunning := true }) current) = current
    exact hl
  · show updateAt i (fun e => { e with isRunning := false })
      (updateAt i (fun e => { e with isRunning := true }) current) = current
    exact hl
  · show (updateAt i (fun e => { e with isRunning := false })
      (updateAt i (fun e => { e with isRunning := true }) current)).get? i = current.get? i
    rw [hl]

/-- Claim C3 witness: a failed patch on a one-event list re-emits that list,
issues an error toast and leaves the event not running. -/
theorem executeAction_failure_spec_witness :
    (executeAction [sampleEventData] 0 false []).emittedList = [sampleEventData] ∧
    (executeAction [sampleEventData] 0 false []).toast = Toast.error := by
  have h := executeAction_failure_spec [sampleEventData] 0 [] (by
    intro e he
    simp only [List.get?_cons_zero, Option.some.injEq] at he
    subst he
    rfl)
  exact ⟨h.1, h.2.2.1⟩

/-- Claim C7 counterexample: after a succeeded patch the subscriber also sets
isRunning to false directly on the view-model object it was handed, so on the
success path the running flag is not cleared only via the list replacement:
the stale object, no longer part of the replaced list, ends with isRunning
false instead of keeping the true it was given at the start. -/
theorem executeAction_success_cex :
    (executeAction [sampleEventData] 0 true []).eventDataFinal
        = some { sampleEventData with isRunning := false } ∧
    ¬ (∀ (current : List QualityAssuranceEventData) (i : Nat)
          (refetched : List QualityAssuranceEventData) (e : QualityAssuranceEventData),
        current.get? i = some e →
        (executeAction current i true refetched).eventDataFinal
          = some { e with isRunning := true }) := by
  constructor
  · rfl
  · intro hclaim
    have h1 := hclaim [sampleEventData] 0 [] sampleEventData rfl
    have h2 : (executeAction [sampleEventData] 0 true []).eventDataFinal
        = some { sampleEventData with isRunning := false } := rfl
    rw [h2] at h1
    exact absurd h1 (by decide)

/-- Claim C7 (amended): when the REST patch succeeds, the re-fetched list is
emitted on eventsUpdated and replaces the entire list, a success toast fires
and the running flag ends false: every freshly built view-model of the
re-fetched list has isRunning false, and the subscriber moreover clears
isRunning directly on the view-model object it was handed, as it does on the
failure path, rather than only through the list replacement. -/
theorem executeAction_success_spec (current : List QualityAssuranceEventData) (i : Nat)
    (pairs : List ResolvedEvent) :
    (executeAction current i true (fetchEvents pairs)).finalList = fetchEvents pairs ∧
    (executeAction current i true (fetchEvents pairs)).emittedList = fetchEvents pairs ∧
    (executeAction current i true (fetchEvents pairs)).toast = Toast.success ∧
    (executeAction current i true (fetchEvents pairs)).refetchPerformed = true ∧
    (∀ vm ∈ fetchEvents pairs, vm.isRunning = false) ∧
    (∀ e, current.get? i = some e →
      (executeAction current i true (fetchEvents pairs)).eventDataFinal
        = some { e with isRunning := false }) := by
  refine ⟨rfl, rfl, rfl, rfl, fetchEvents_isRunning_false pairs, ?_⟩
  intro e he
  have hfin : (executeAction current i true (fetchEvents pairs)).eventDataFinal
      = ((updateAt i (fun x => { x with isRunning := true }) current).get? i).map
          (fun x => { x with isRunning := false }) := rfl
  rw [hfin, updateAt_get?_eq, he]
  simp only [Option.map_some', Option.some.injEq]

/-- Claim C7 witness: a succeeded patch on a one-event list emits the freshly
fetched list, issues a success toast and ends with the handed view-model not
running. -/
theorem executeAction_success_spec_witness :
    (executeAction [sampleEventData] 0 true (fetchEvents [sampleResolvedEvent])).toast
        = Toast.success ∧
    (executeAction [sampleEventData] 0 true (fetchEvents [sampleResolvedEvent])).eventDataFinal
        = some { sampleEventData with isRunning := false } := by
  have h := executeAction_success_spec [sampleEventData] 0 [sampleResolvedEvent]
  exact ⟨h.2.2.1, h.2.2.2.2.2 sampleEventData rfl⟩

/-- Claim C8: boundProject and removeProject mutate only the targeted event:
on success boundProject sets hasProject with the supplied project title, id and
handle and removeProject clears them, on failure the project fields are
unchanged and an error toast fires, every other event of the list is left
untouched, nothing is emitted on eventsUpdated, no re-fetch happens, and the
running flag ends false on both paths. -/
theorem boundRemoveProject_spec (current : List QualityAssuranceEventData) (i : Nat)
    (pid ptitle phandle : String) (succ : Bool) :
    (∀ j, j ≠ i →
      (boundProject current i pid ptitle phandle succ).finalList.get? j = current.get? j ∧
      (removeProject current i succ).finalList.get? j = current.get? j) ∧
    (boundProject current i pid ptitle phandle succ).emissions = [] ∧
    (removeProject current i succ).emissions = [] ∧
    (boundProject current i pid ptitle phandle succ).refetchPerformed = false ∧
    (removeProject current i succ).refetchPerformed = false ∧
    (boundProject current i pid ptitle phandle succ).toast
      = (if succ = true then Toast.success else Toast.error) ∧
    (removeProject current i succ).toast
      = (if succ = true then Toast.success else Toast.error) ∧
    (∀ e, current.get? i = some e →
      (if succ = true then
        (boundProject current i pid ptitle phandle succ).finalList.get? i
            = some { e with
                hasProject := true
                projectTitle := some ptitle
                handle := some phandle
                projectId := some pid
                isRunning := false } ∧
        (removeProject current i succ).finalList.get? i
            = some { e with
                hasProject := false
                projectTitle := none
                handle := none
                projectId := none
                isRunning := false }
      else
        (boundProject current i pid ptitle phandle succ).finalList.get? i
            = some { e with isRunning := false } ∧
        (removeProject current i succ).finalList.get? i
            = some { e with isRunning := false })) := by
  cases succ with
  | true =>
    refine ⟨?_, rfl, rfl, rfl, rfl, rfl, rfl, ?_⟩
    · intro j hj
      exact ⟨updateAt2_get?_ne _ _ current i j hj, updateAt2_get?_ne _ _ current i j hj⟩
    · intro e he
      rw [if_pos rfl]
      constructor
      · show (updateAt i _ (updateAt i (fun x => { x with isRunning := true })
          current)).get? i = _
        rw [updateAt2_get?_eq, he]
        simp only [Option.map_some', Option.some.injEq]
      · show (updateAt i _ (updateAt i (fun x => { x with isRunning := true })
          current)).get? i = _
        rw [updateAt2_get?_eq, he]
        simp only [Option.map_some', Option.some.injEq]
  | false =>
    refine ⟨?_, rfl, rfl, rfl, rfl, rfl, rfl, ?_⟩
    · intro j hj
      exact ⟨updateAt2_get?_ne _ _ current i j hj, updateAt2_get?_ne _ _ current i j hj⟩
    · intro e he
      rw [if_neg (by simp)]
      constructor
      · show (updateAt i (fun x => { x with isRunning := false })
          (updateAt i (fun x => { x with isRunning := true }) current)).get? i = _
        rw [updateAt2_get?_eq, he]
        simp only [Option.map_some', Option.some.injEq]
      · show (updateAt i (fun x => { x with isRunning := false })
          (updateAt i (fun x => { x with isRunning := true }) current)).get? i = _
        rw [updateAt2_get?_eq, he]
        simp only [Option.map_some', Option.some.injEq]

/-- Claim C8 witness: a succeeded bind on a one-event list sets the project
fields of that event and issues a success toast without any emission. -/
theorem boundRemoveProject_spec_witness :
    (boundProject [sampleEventData] 0 "p1" "t1" "h1" true).finalList.get? 0
        = some { sampleEventData with
            hasProject := true
            projectTitle := some "t1"
            handle := some "h1"
            projectId := some "p1"
            isRunning := false } ∧
    (boundProject [sampleEventData] 0 "p1" "t1" "h1" true).emissions = [] := by
  have h := boundRemoveProject_spec [sampleEventData] 0 "p1" "t1" "h1" true
  have h8 := h.2.2.2.2.2.2.2 sampleEventData rfl
  rw [if_pos rfl] at h8
  exact ⟨h8.1, h.2.1⟩

end DSpace
